import Mathlib

/-! Verification development for the psl_proof client protocol layer
    (psl_proof/utils/submission.py and psl_proof/models/submission_dtos.py):
    the ISO-8601 timestamp normalizer `parse_iso_datetime`, the field-by-field
    decoding of the three wire responses into the submission DTOs, and the
    three HTTP request flows with their error policies. -/

/-- JSON values as produced by response.json(). Numbers are modelled as
    rationals (the client never computes with them, it only passes them
    through); Python None is identified with null; an object is an
    association list with distinct keys (first binding wins on lookup). -/
inductive JsonValue where
  | null
  | bool (b : Bool)
  | num (q : ℚ)
  | str (s : String)
  | arr (elems : List JsonValue)
  | obj (fields : List (String × JsonValue))

/-- Python truthiness of a decoded JSON value: None, False, 0, "", [] and {}
    are falsy, everything else is truthy. -/
def truthy : JsonValue → Bool
  | .null => false
  | .bool b => b
  | .num q => q ≠ 0
  | .str s => s ≠ ""
  | .arr l => !l.isEmpty
  | .obj f => !f.isEmpty

/-- Lookup of a key in a decoded JSON object (Python dict indexing). -/
def lookupField : List (String × JsonValue) → String → Option JsonValue
  | [], _ => none
  | (k, v) :: rest, key => if k = key then some v else lookupField rest key

/-- Python dict.get(key, default) on a decoded JSON object. -/
def dictGet (fields : List (String × JsonValue)) (key : String)
    (dflt : JsonValue) : JsonValue :=
  (lookupField fields key).getD dflt

/-- A Python datetime value: the naive calendar fields plus, for an aware
    value, the UTC offset of its timezone in microseconds. -/
structure PyDatetime where
  year : Nat
  month : Nat
  day : Nat
  hour : Nat
  minute : Nat
  second : Nat
  microsecond : Nat
  utcOffsetMicros : Option Int
  deriving DecidableEq, Repr

/-- Numeric value of a decimal digit character. -/
def digitVal (c : Char) : Nat := c.toNat - 48

/-- Read exactly two decimal digits (one int(tstr[pos:pos+2]) step of
    CPython's _parse_hh_mm_ss_ff). -/
def digits2? : List Char → Option (Nat × List Char)
  | a :: b :: rest =>
    if a.isDigit ∧ b.isDigit then some (digitVal a * 10 + digitVal b, rest)
    else none
  | _ => none

/-- Value of a non-empty all-digit run (int() applied to a digit string). -/
def digitsVal? (l : List Char) : Option Nat :=
  if l ≠ [] ∧ l.all Char.isDigit then
    some (l.foldl (fun a c => a * 10 + digitVal c) 0)
  else none

/-- CPython _parse_isoformat_date: the first ten characters must be
    YYYY-MM-DD; the remainder of the string is returned unconsumed. -/
def parseDate? : List Char → Option (Nat × Nat × Nat × List Char)
  | y1 :: y2 :: y3 :: y4 :: '-' :: m1 :: m2 :: '-' :: d1 :: d2 :: rest =>
    if [y1, y2, y3, y4, m1, m2, d1, d2].all Char.isDigit then
      some (digitVal y1 * 1000 + digitVal y2 * 100 + digitVal y3 * 10 + digitVal y4,
            digitVal m1 * 10 + digitVal m2,
            digitVal d1 * 10 + digitVal d2,
            rest)
    else none
  | _ => none

/-- CPython _parse_hh_mm_ss_ff: HH, then optionally :MM, then optionally :SS,
    then optionally a fraction of exactly 3 or 6 digits after a dot; a
    3-digit fraction is scaled to microseconds. -/
def parse_hh_mm_ss_ff (l : List Char) : Option (Nat × Nat × Nat × Nat) :=
  match digits2? l with
  | none => none
  | some (h, r1) =>
    match r1 with
    | [] => some (h, 0, 0, 0)
    | ':' :: r2 =>
      match digits2? r2 with
      | none => none
      | some (m, r3) =>
        match r3 with
        | [] => some (h, m, 0, 0)
        | ':' :: r4 =>
          match digits2? r4 with
          | none => none
          | some (s, r5) =>
            match r5 with
            | [] => some (h, m, s, 0)
            | '.' :: r6 =>
              if r6.length = 3 then
                (digitsVal? r6).map (fun f => (h, m, s, f * 1000))
              else if r6.length = 6 then
                (digitsVal? r6).map (fun f => (h, m, s, f))
              else none
            | _ => none
        | _ => none
    | _ => none

/-- Position of the timezone sign in the time part of the string: CPython
    takes the first '-' if one occurs anywhere in it, otherwise the
    first '+'. -/
def tzSignSplit (tstr : List Char) : Option (Char × Nat) :=
  match tstr.findIdx? (· = '-') with
  | some i => some ('-', i)
  | none =>
    match tstr.findIdx? (· = '+') with
    | some i => some ('+', i)
    | none => none

/-- Whether a proleptic-Gregorian year is a leap year. -/
def isLeapYear (y : Nat) : Bool := y % 4 = 0 && (y % 100 ≠ 0 || y % 400 = 0)

/-- Number of days in a month of a given year. -/
def daysInMonth (y mo : Nat) : Nat :=
  if mo = 2 then (if isLeapYear y then 29 else 28)
  else if mo = 4 ∨ mo = 6 ∨ mo = 9 ∨ mo = 11 then 30
  else 31

/-- Range checks performed by the datetime constructor. -/
def mkDatetime? (y mo d h mi s f : Nat) (off : Option Int) : Option PyDatetime :=
  if 1 ≤ y ∧ y ≤ 9999 ∧ 1 ≤ mo ∧ mo ≤ 12 ∧ 1 ≤ d ∧ d ≤ daysInMonth y mo ∧
     h ≤ 23 ∧ mi ≤ 59 ∧ s ≤ 59 ∧ f ≤ 999999 then
    some ⟨y, mo, d, h, mi, s, f, off⟩
  else none

/-- CPython _parse_isoformat_time: split off an optional timezone suffix at
    the first sign character, parse the clock part, require the timezone part
    to be 5, 8 or 15 characters, and bound the offset strictly below 24
    hours (the datetime.timezone constructor's check). -/
def parseTimeAndTz (tstr : List Char) : Option (Nat × Nat × Nat × Nat × Option Int) :=
  match tzSignSplit tstr with
  | none =>
    (parse_hh_mm_ss_ff tstr).map (fun (h, m, s, f) => (h, m, s, f, none))
  | some (sgn, i) =>
    let timestr := tstr.take i
    let tzstr := tstr.drop (i + 1)
    match parse_hh_mm_ss_ff timestr with
    | none => none
    | some (h, m, s, f) =>
      if tzstr.length = 5 ∨ tzstr.length = 8 ∨ tzstr.length = 15 then
        match parse_hh_mm_ss_ff tzstr with
        | none => none
        | some (th, tm, ts, tf) =>
          let offMicros : Int := (((th * 3600 + tm * 60 + ts) * 1000000 + tf : Nat) : Int)
          if offMicros < 86400000000 then
            some (h, m, s, f, some (if sgn = '-' then -offMicros else offMicros))
          else none
      else none

/-- CPython datetime.fromisoformat (Python 3.7-3.10 grammar, the one the
    source's comment about 0/3/6 fractional digits refers to): a YYYY-MM-DD
    date, then optionally one separator character (ignored) and a time part
    with optional fraction and optional signed offset. Returns none where
    CPython raises ValueError. -/
def fromisoformatL (l : List Char) : Option PyDatetime :=
  match parseDate? l with
  | none => none
  | some (y, mo, d, rest) =>
    match rest with
    | [] => mkDatetime? y mo d 0 0 0 0 none
    | _ :: timeChars =>
      if timeChars = [] then mkDatetime? y mo d 0 0 0 0 none
      else
        match parseTimeAndTz timeChars with
        | none => none
        | some (h, mi, s, f, off) => mkDatetime? y mo d h mi s f off

/-- Days before January 1 of a year, proleptic Gregorian (CPython
    _days_before_year). -/
def daysBeforeYear (y : Nat) : Nat :=
  365 * (y - 1) + (y - 1) / 4 - (y - 1) / 100 + (y - 1) / 400

/-- Days before the first of a month within a year. -/
def daysBeforeMonth (y mo : Nat) : Nat :=
  (List.range (mo - 1)).foldl (fun a m => a + daysInMonth y (m + 1)) 0

/-- Proleptic-Gregorian ordinal of a date (0001-01-01 is day 1). -/
def toOrdinal (y mo d : Nat) : Nat := daysBeforeYear y + daysBeforeMonth y mo + d

/-- The instant a datetime denotes, in microseconds relative to the epoch of
    the ordinal count, with the UTC offset of an aware value subtracted out. -/
def instantMicros (dt : PyDatetime) : Int :=
  ((toOrdinal dt.year dt.month dt.day * 86400 + dt.hour * 3600 +
      dt.minute * 60 + dt.second : Nat) : Int) * 1000000 +
    (dt.microsecond : Int) - dt.utcOffsetMicros.getD 0

/-- Step 1 of parse_iso_datetime: if date_string.endswith('Z'), replace the
    final character with "+00:00". -/
def zStep (l : List Char) : List Char :=
  if l.getLast? = some 'Z' then l.dropLast ++ ('+' :: '0' :: '0' :: ':' :: '0' :: '0' :: []) else l

/-- Maximal run of decimal digits at the head of the list (one greedy
    backslash-d-plus step of the regex engine). -/
def takeDigits : List Char → List Char × List Char
  | [] => ([], [])
  | c :: cs =>
    if c.isDigit then
      let (d, r) := takeDigits cs
      (c :: d, r)
    else ([], c :: cs)

/-- The regex tail ".+$" with Python's end-anchor semantics: the dollar also
    matches just before one trailing newline, and the dot never matches a
    newline. Returns the characters the dot-plus consumed. -/
def matchRestDollar (l : List Char) : Option (List Char) :=
  let core := if l.getLast? = some '\n' then l.dropLast else l
  if core ≠ [] ∧ '\n' ∉ core then some core else none

/-- Attempt to match the remainder of the pattern, digits then ([+-].+)$,
    at the position just after a '.'; returns (fractional digit run,
    second capture group). -/
def tryTail (cs : List Char) : Option (List Char × List Char) :=
  let (d, r) := takeDigits cs
  if d = [] then none
  else
    match r with
    | c :: rest =>
      if c = '+' ∨ c = '-' then
        match matchRestDollar rest with
        | some t => some (d, c :: t)
        | none => none
      else none
    | [] => none

/-- Backtracking scan for re.match(r'^(.+\.\d+)([+-].+)$', s): the greedy
    leading dot-plus makes the engine try the rightmost '.' first, so the
    deeper match is preferred; a newline stops the leading dot-plus, so no
    candidate at or beyond a newline can be reached. The first component of
    a result is the part of group 1 before its final '.', the second is the
    digit run after it, the third is group 2. -/
def regexScan : List Char → List Char → Option (List Char × List Char × List Char)
  | _, [] => none
  | pre, c :: cs =>
    if c = '\n' then none
    else
      match regexScan (pre ++ [c]) cs with
      | some r => some r
      | none =>
        if c = '.' then
          match tryTail cs with
          | some (d, g2) => some (pre, d, g2)
          | none => none
        else none

/-- Full-string match of re.match(r'^(.+\.\d+)([+-].+)$', s): the matched
    '.' must have at least one character before it. Since the digit run
    contains no '.', splitting group 1 with rsplit('.', 1) recovers exactly
    the first two components of the result. -/
def regexSplit : List Char → Option (List Char × List Char × List Char)
  | [] => none
  | c :: cs => if c = '\n' then none else regexScan [c] cs

/-- Step 2 of parse_iso_datetime on the fractional run: frac[:6].ljust(6, '0'),
    i.e. truncate to the first six digits and right-pad with zeros to six. -/
def padTo6 (f : List Char) : List Char := f.take 6 ++ List.replicate (6 - f.length) '0'

/-- The pure string rewriting performed by parse_iso_datetime before the
    final fromisoformat call: the Z-suffix replacement followed by the
    fractional-run normalization when the regex matches. -/
def normalizeIsoL (l : List Char) : List Char :=
  let l1 := zStep l
  match regexSplit l1 with
  | some (base, frac, tzpart) => base ++ '.' :: (padTo6 frac ++ tzpart)
  | none => l1

/-- parse_iso_datetime from psl_proof/utils/submission.py: normalize the
    string, then datetime.fromisoformat; none models the ValueError raised
    on an invalid result. -/
def parse_iso_datetime (s : String) : Option PyDatetime :=
  fromisoformatL (normalizeIsoL s.data)

/-- Errors a decode step can raise: ValueError (including the json decode
    errors, which subclass it), KeyError from required dict indexing, and
    TypeError/AttributeError from operations on wrongly-typed values
    (collapsed into one constructor, since the source only ever
    discriminates ValueError). -/
inductive PyErr where
  | valueError
  | keyError
  | typeError
  deriving DecidableEq, Repr

/-- Python iteration over a decoded JSON value: a list yields its elements,
    a string yields its characters (as one-character strings), a dict yields
    its keys; anything else raises TypeError. -/
def pyIter : JsonValue → Except PyErr (List JsonValue)
  | .arr l => .ok l
  | .str s => .ok (s.data.map fun c => .str (String.mk [c]))
  | .obj fs => .ok (fs.map fun p => .str p.1)
  | _ => .error .typeError

/-- SubmissionChat from submission_dtos.py. The count fields hold whatever
    value dict.get returned; the timestamp fields hold parsed datetimes. -/
structure SubmissionChat where
  participant_count : JsonValue
  chat_count : JsonValue
  chat_length : JsonValue
  chat_start_on : PyDatetime
  chat_ended_on : PyDatetime

/-- ChatHistory from submission_dtos.py. -/
structure ChatHistory where
  source_chat_id : JsonValue
  chat_list : List SubmissionChat

/-- SubmissionHistory from submission_dtos.py; last_submission is None or a
    parsed datetime. -/
structure SubmissionHistory where
  is_valid : JsonValue
  error_text : JsonValue
  last_submission : Option PyDatetime
  chat_histories : List ChatHistory

/-- SubmitDataResponse from submission_dtos.py. -/
structure SubmitDataResponse where
  is_valid : JsonValue
  error_text : JsonValue

/-- ChatEvaluationSummary from submission_dtos.py. -/
structure ChatEvaluationSummary where
  source_chat_id : JsonValue
  message_count : JsonValue
  chat_quality : JsonValue
  chat_uniqueness : JsonValue

/-- EvaluationDetails from submission_dtos.py; llm_reasoning holds the value
    dict.get("llmReasoning") returned (null when the key is absent, exactly
    as Python stores None). -/
structure EvaluationDetails where
  total_messages : JsonValue
  unique_messages : JsonValue
  llm_reasoning : JsonValue
  chat_summaries : List ChatEvaluationSummary

/-- EvaluateSubmissionResponse from submission_dtos.py. -/
structure EvaluateSubmissionResponse where
  is_valid : JsonValue
  error_text : JsonValue
  quality : JsonValue
  uniqueness : JsonValue
  score : JsonValue
  details : Option EvaluationDetails

/-- Applying parse_iso_datetime to a decoded JSON value: only a string can be
    parsed (fromisoformat failure is ValueError); any other value has no
    endswith attribute, an AttributeError. -/
def pyParseDatetime : JsonValue → Except PyErr PyDatetime
  | .str s =>
    match parse_iso_datetime s with
    | some dt => .ok dt
    | none => .error .valueError
  | _ => .error .typeError

/-- One element of a "chats" array (submission.py lines 68-77): the three
    counts default via dict.get, while chat["chatStartOn"] and
    chat["chatEndedOn"] are required lookups whose values are parsed, in
    the argument order of the SubmissionChat call. -/
def decodeSubmissionChat : JsonValue → Except PyErr SubmissionChat
  | .obj fs => do
    let startDt ← match lookupField fs "chatStartOn" with
                  | some v => pyParseDatetime v
                  | none => .error .keyError
    let endDt ← match lookupField fs "chatEndedOn" with
                | some v => pyParseDatetime v
                | none => .error .keyError
    .ok ⟨dictGet fs "participantCount" (.num 0),
         dictGet fs "chatCount" (.num 0),
         dictGet fs "chatLength" (.num 0),
         startDt, endDt⟩
  | _ => .error .typeError

/-- One element of "chatHistories" (submission.py lines 66-83):
    chat_history_data.get("chats", []) is iterated into SubmissionChat
    values and sourceChatId defaults to the number 0. -/
def decodeChatHistory : JsonValue → Except PyErr ChatHistory
  | .obj fs => do
    let items ← pyIter (dictGet fs "chats" (.arr []))
    let chat_list ← items.mapM decodeSubmissionChat
    .ok ⟨dictGet fs "sourceChatId" (.num 0), chat_list⟩
  | _ => .error .typeError

/-- The "chatHistories" value (defaulted to []) iterated into ChatHistory
    values. -/
def decodeChatHistories (j : JsonValue) : Except PyErr (List ChatHistory) := do
  let items ← pyIter j
  items.mapM decodeChatHistory

/-- The lastSubmission conversion (submission.py lines 86-96): parse only a
    truthy value; a ValueError from the parse is caught and degrades to
    None, while a non-string truthy value raises AttributeError, which the
    except ValueError clause does not catch. -/
def decodeLastSubmission (v : JsonValue) : Except PyErr (Option PyDatetime) :=
  if truthy v then
    match v with
    | .str s => .ok (parse_iso_datetime s)
    | _ => .error .typeError
  else .ok none

/-- The 200-branch decoding of get_submission_historical_data (submission.py
    lines 60-103), in source order: chatHistories first, then
    lastSubmission, then the SubmissionHistory construction with its
    isValid/errorText defaults. -/
def decodeSubmissionHistory : JsonValue → Except PyErr SubmissionHistory
  | .obj fs => do
    let chat_histories ← decodeChatHistories (dictGet fs "chatHistories" (.arr []))
    let last_submission ← decodeLastSubmission (dictGet fs "lastSubmission" .null)
    .ok ⟨dictGet fs "isValid" (.bool false),
         dictGet fs "errorText" (.str ""),
         last_submission, chat_histories⟩
  | _ => .error .typeError

/-- One element of details.chatSummaries (submission.py lines 180-186). -/
def decodeChatEvaluationSummary : JsonValue → Except PyErr ChatEvaluationSummary
  | .obj fs =>
    .ok ⟨dictGet fs "sourceChatId" (.str ""),
         dictGet fs "messageCount" (.num 0),
         dictGet fs "chatQuality" (.num 0),
         dictGet fs "chatUniqueness" (.num 0)⟩
  | _ => .error .typeError

/-- The details object decoding (submission.py lines 179-193). -/
def decodeEvaluationDetails : JsonValue → Except PyErr EvaluationDetails
  | .obj fs => do
    let items ← pyIter (dictGet fs "chatSummaries" (.arr []))
    let chat_summaries ← items.mapM decodeChatEvaluationSummary
    .ok ⟨dictGet fs "totalMessages" (.num 0),
         dictGet fs "uniqueMessages" (.num 0),
         dictGet fs "llmReasoning" .null,
         chat_summaries⟩
  | _ => .error .typeError

/-- The 200-branch decoding of evaluate_submission (submission.py lines
    172-202): details is decoded only when result_json.get("details") is
    truthy, otherwise it stays None. -/
def decodeEvaluateSubmissionResponse : JsonValue → Except PyErr EvaluateSubmissionResponse
  | .obj fs => do
    let details_json := dictGet fs "details" .null
    let details ← if truthy details_json then
        (decodeEvaluationDetails details_json).map some
      else .ok none
    .ok ⟨dictGet fs "isValid" (.bool false),
         dictGet fs "errorText" (.str ""),
         dictGet fs "quality" (.num 0),
         dictGet fs "uniqueness" (.num 0),
         dictGet fs "score" (.num 0),
         details⟩
  | _ => .error .typeError

/-- Outcome of one HTTP POST as the flows observe it: either a transport
    error (requests.exceptions.RequestException, carrying its message) or a
    status code together with what response.json() would produce — a JSON
    value, or a decode-error message for a malformed body. -/
inductive HttpResult where
  | transportError (msg : String)
  | success (statusCode : Nat) (body : Except String JsonValue)

/-- How a flow call ends: a value returned to the caller, process
    termination through sys.exit, or an uncaught exception escaping the
    flow. -/
inductive FlowOutcome (α : Type) where
  | ret (value : α)
  | exitProcess (code : Nat)
  | uncaught (e : PyErr)

/-- get_submission_historical_data (submission.py lines 44-115) as a function
    of the HTTP outcome: transport errors, non-200 statuses, malformed JSON
    bodies and ValueError during decoding all log and sys.exit(1); a
    KeyError or TypeError escapes the except ValueError clause uncaught. -/
def get_submission_historical_data : HttpResult → FlowOutcome SubmissionHistory
  | .transportError _ => .exitProcess 1
  | .success code body =>
    if code = 200 then
      match body with
      | .error _ => .exitProcess 1
      | .ok j =>
        match decodeSubmissionHistory j with
        | .ok h => .ret h
        | .error .valueError => .exitProcess 1
        | .error e => .uncaught e
    else .exitProcess 1

/-- evaluate_submission (submission.py lines 119-222) as a function of the
    HTTP outcome: a transport error (which the malformed-JSON
    requests.exceptions.JSONDecodeError also is) returns a zeroed response
    carrying str(e); a non-200 status returns a zeroed response with the
    formatted status text; only an exception inside the 200-branch decoding
    escapes uncaught. -/
def evaluate_submission : HttpResult → FlowOutcome EvaluateSubmissionResponse
  | .transportError msg =>
    .ret ⟨.bool false, .str msg, .num 0, .num 0, .num 0, none⟩
  | .success code body =>
    if code = 200 then
      match body with
      | .error msg => .ret ⟨.bool false, .str msg, .num 0, .num 0, .num 0, none⟩
      | .ok j =>
        match decodeEvaluateSubmissionResponse j with
        | .ok r => .ret r
        | .error e => .uncaught e
    else
      .ret ⟨.bool false, .str ("Evaluate request failed with status " ++ toString code),
            .num 0, .num 0, .num 0, none⟩

/-- submit_data (submission.py lines 225-254) as a function of the HTTP
    outcome: transport errors (including malformed JSON), and non-200
    statuses sys.exit(1); a 200 body decodes with isValid/errorText
    defaults, a non-object body raising AttributeError uncaught. -/
def submit_data : HttpResult → FlowOutcome SubmitDataResponse
  | .transportError _ => .exitProcess 1
  | .success code body =>
    if code = 200 then
      match body with
      | .error _ => .exitProcess 1
      | .ok j =>
        match j with
        | .obj fs =>
          .ret ⟨dictGet fs "isValid" (.bool false), dictGet fs "errorText" (.str "")⟩
        | _ => .uncaught .typeError
    else .exitProcess 1

/-- Removal of one key from a decoded JSON object, for comparing a response
    against the same response with a field absent. -/
def removeField : List (String × JsonValue) → String → List (String × JsonValue)
  | [], _ => []
  | (k, v) :: rest, key =>
    if k = key then removeField rest key else (k, v) :: removeField rest key

theorem lookupField_removeField_self (fields : List (String × JsonValue)) (key : String) :
    lookupField (removeField fields key) key = none := by
  induction fields with
  | nil => rfl
  | cons p rest ih =>
    rcases p with ⟨k, v⟩
    by_cases h : k = key
    · simpa [removeField, h] using ih
    · simp [removeField, h, lookupField, ih]

theorem lookupField_removeField_ne (fields : List (String × JsonValue)) (key k : String)
    (hk : k ≠ key) : lookupField (removeField fields key) k = lookupField fields k := by
  induction fields with
  | nil => rfl
  | cons p rest ih =>
    rcases p with ⟨k2, v⟩
    by_cases h : k2 = key
    · subst h
      have hne : k2 ≠ k := fun he => hk he.symm
      simp [removeField, lookupField, hne, ih]
    · simp [removeField, h, lookupField, ih]

/-- C3: for every evaluate-flow call that sees a non-200 status or a
    transport failure, evaluate_submission neither raises nor terminates the
    process: it returns an EvaluateSubmissionResponse with is_valid false,
    quality, uniqueness and score all zero, and error text describing the
    status (always non-empty) or the exception (non-empty whenever the
    exception's rendering is). -/
theorem C3_evaluate_failure_nonfatal (code : Nat) (body : Except String JsonValue)
    (msg : String) (hcode : code ≠ 200) (hmsg : msg ≠ "") :
    evaluate_submission (.success code body) =
      .ret ⟨.bool false, .str ("Evaluate request failed with status " ++ toString code),
            .num 0, .num 0, .num 0, none⟩ ∧
    0 < ("Evaluate request failed with status " ++ toString code).length ∧
    evaluate_submission (.transportError msg) =
      .ret ⟨.bool false, .str msg, .num 0, .num 0, .num 0, none⟩ ∧
    0 < msg.length := by
  refine ⟨?_, ?_, rfl, ?_⟩
  · simp [evaluate_submission, hcode]
  · have h1 : ("Evaluate request failed with status ").length = 36 := by decide
    have h2 := String.length_append "Evaluate request failed with status " (toString code)
    omega
  · have hd : msg.data ≠ [] := fun he => hmsg (by cases msg; simp_all)
    exact List.length_pos.mpr hd

/-- C3 witness at a concrete failing status and a concrete exception text. -/
theorem C3_witness :
    evaluate_submission (.success 500 (.ok (.obj []))) =
      .ret ⟨.bool false, .str "Evaluate request failed with status 500",
            .num 0, .num 0, .num 0, none⟩ ∧
    evaluate_submission (.transportError "Connection refused") =
      .ret ⟨.bool false, .str "Connection refused", .num 0, .num 0, .num 0, none⟩ :=
  ⟨((C3_evaluate_failure_nonfatal 500 (.ok (.obj [])) "Connection refused"
      (by decide) (by decide)).1).trans (by rfl),
   (C3_evaluate_failure_nonfatal 500 (.ok (.obj [])) "Connection refused"
      (by decide) (by decide)).2.2.1⟩

/-- C4: the Historical Data Fetcher and the Data Submitter treat transport
    errors, non-200 statuses, and decode errors in the taxonomy's sense
    (malformed JSON bodies, and for the fetcher a ValueError raised while
    decoding, e.g. an unparsable timestamp) as fatal: the process is
    terminated via sys.exit(1) and no result reaches the caller. -/
theorem C4_fatal_flows (msg jmsg : String) (code : Nat) (body : Except String JsonValue)
    (j : JsonValue) (hcode : code ≠ 200)
    (hj : decodeSubmissionHistory j = .error .valueError) :
    get_submission_historical_data (.transportError msg) = .exitProcess 1 ∧
    submit_data (.transportError msg) = .exitProcess 1 ∧
    get_submission_historical_data (.success code body) = .exitProcess 1 ∧
    submit_data (.success code body) = .exitProcess 1 ∧
    get_submission_historical_data (.success 200 (.error jmsg)) = .exitProcess 1 ∧
    submit_data (.success 200 (.error jmsg)) = .exitProcess 1 ∧
    get_submission_historical_data (.success 200 (.ok j)) = .exitProcess 1 := by
  refine ⟨rfl, rfl, ?_, ?_, rfl, rfl, ?_⟩
  · simp [get_submission_historical_data, hcode]
  · simp [submit_data, hcode]
  · simp [get_submission_historical_data, hj]

/-- C4 witness: a concrete transport error, a concrete 503 status, a
    malformed body, and a 200 body whose chat timestamp fails to parse. -/
theorem C4_witness :
    get_submission_historical_data (.transportError "connection reset") = .exitProcess 1 ∧
    submit_data (.success 503 (.ok (.obj []))) = .exitProcess 1 ∧
    get_submission_historical_data (.success 200 (.ok (.obj
      [("chatHistories", .arr [.obj [("chats", .arr [.obj
        [("chatStartOn", .str "not-a-date"), ("chatEndedOn", .str "not-a-date")]])]])]))) =
      .exitProcess 1 :=
  ⟨(C4_fatal_flows "connection reset" "x" 503 (.ok (.obj []))
      (.obj [("chatHistories", .arr [.obj [("chats", .arr [.obj
        [("chatStartOn", .str "not-a-date"), ("chatEndedOn", .str "not-a-date")]])]])])
      (by decide) (by rfl)).1,
   (C4_fatal_flows "connection reset" "x" 503 (.ok (.obj []))
      (.obj [("chatHistories", .arr [.obj [("chats", .arr [.obj
        [("chatStartOn", .str "not-a-date"), ("chatEndedOn", .str "not-a-date")]])]])])
      (by decide) (by rfl)).2.2.2.1,
   (C4_fatal_flows "connection reset" "x" 503 (.ok (.obj []))
      (.obj [("chatHistories", .arr [.obj [("chats", .arr [.obj
        [("chatStartOn", .str "not-a-date"), ("chatEndedOn", .str "not-a-date")]])]])])
      (by decide) (by rfl)).2.2.2.2.2.2⟩

/-- C2 counterexample: a historical-data chat entry lacking its chatStartOn
    field does not decode to a result with a default in place; the required
    dictionary indexing raises KeyError, an uncaught decode failure. And a
    chatHistories entry lacking sourceChatId decodes to the number 0, not to
    the empty-string text default the claim documents. -/
theorem C2_counterexample :
    get_submission_historical_data (.success 200 (.ok (.obj
        [("chatHistories", .arr [.obj [("chats", .arr [.obj []])]])]))) =
      .uncaught .keyError ∧
    decodeSubmissionHistory (.obj [("chatHistories", .arr [.obj []])]) =
      .ok ⟨.bool false, .str "", none, [⟨.num 0, []⟩]⟩ ∧
    JsonValue.num 0 ≠ JsonValue.str "" :=
  ⟨rfl, rfl, fun h => JsonValue.noConfusion h⟩

/-- C2 amended: absence of a decoded field resolves to its code default and
    not to a decode failure for every field except the chat timestamps:
    top-level booleans default to false, counts and scores to 0, text to "",
    lastSubmission and details to absent, and llmReasoning to null; but the
    historical sourceChatId defaults to the number 0 rather than the empty
    string, and a chat entry's chatStartOn/chatEndedOn are required fields
    whose absence raises an uncaught KeyError. -/
theorem C2_amended_defaults :
    submit_data (.success 200 (.ok (.obj []))) = .ret ⟨.bool false, .str ""⟩ ∧
    evaluate_submission (.success 200 (.ok (.obj []))) =
      .ret ⟨.bool false, .str "", .num 0, .num 0, .num 0, none⟩ ∧
    decodeSubmissionHistory (.obj []) = .ok ⟨.bool false, .str "", none, []⟩ ∧
    decodeSubmissionHistory (.obj [("chatHistories", .arr [.obj [("chats", .arr [.obj
        [("chatStartOn", .str "2024-01-15T10:30:00Z"),
         ("chatEndedOn", .str "2024-01-15T11:30:00Z")]])]])]) =
      .ok ⟨.bool false, .str "", none,
           [⟨.num 0, [⟨.num 0, .num 0, .num 0,
                       ⟨2024, 1, 15, 10, 30, 0, 0, some 0⟩,
                       ⟨2024, 1, 15, 11, 30, 0, 0, some 0⟩⟩]⟩]⟩ ∧
    decodeEvaluateSubmissionResponse
        (.obj [("details", .obj [("chatSummaries", .arr [.obj []])])]) =
      .ok ⟨.bool false, .str "", .num 0, .num 0, .num 0,
           some ⟨.num 0, .num 0, .null, [⟨.str "", .num 0, .num 0, .num 0⟩]⟩⟩ ∧
    decodeSubmissionHistory
        (.obj [("chatHistories", .arr [.obj [("chats", .arr [.obj []])]])]) =
      .error .keyError :=
  ⟨rfl, rfl, rfl, rfl, rfl, rfl⟩

/-- C5: in a historical-data 200 response, lastSubmission is parsed only when
    present and non-empty; when it is missing, falsy, or a string the
    normalizer fails on, the decode proceeds exactly as it would with the
    field absent: last_submission is None and the rest of the response is
    still decoded, so this one field never aborts the response. -/
theorem C5_lastSubmission_graceful (fs : List (String × JsonValue))
    (h : truthy (dictGet fs "lastSubmission" .null) = false ∨
         ∃ s, dictGet fs "lastSubmission" .null = .str s ∧ parse_iso_datetime s = none) :
    decodeSubmissionHistory (.obj fs) =
      (decodeChatHistories (dictGet fs "chatHistories" (.arr []))).map
        (fun chs => ⟨dictGet fs "isValid" (.bool false),
                     dictGet fs "errorText" (.str ""), none, chs⟩) := by
  have hls : decodeLastSubmission (dictGet fs "lastSubmission" .null) = .ok none := by
    rcases h with h | ⟨s, hv, hp⟩
    · simp [decodeLastSubmission, h]
    · rw [hv]
      by_cases ht : truthy (.str s) <;> simp [decodeLastSubmission, ht, hp]
  cases hch : decodeChatHistories (dictGet fs "chatHistories" (.arr [])) with
  | error e =>
    simp [decodeSubmissionHistory, hch, hls, Except.map, Bind.bind, Except.bind]
  | ok chs =>
    simp [decodeSubmissionHistory, hch, hls, Except.map, Bind.bind, Except.bind]

/-- C5 witness: a response whose lastSubmission is an unparsable string still
    decodes, with last_submission absent and the chat histories intact. -/
theorem C5_witness :
    decodeSubmissionHistory (.obj
        [("isValid", .bool true),
         ("lastSubmission", .str "not-a-date"),
         ("chatHistories", .arr [.obj [("sourceChatId", .str "abc")]])]) =
      .ok ⟨.bool true, .str "", none, [⟨.str "abc", []⟩]⟩ :=
  (C5_lastSubmission_graceful
      [("isValid", .bool true),
       ("lastSubmission", .str "not-a-date"),
       ("chatHistories", .arr [.obj [("sourceChatId", .str "abc")]])]
      (Or.inr ⟨"not-a-date", rfl, rfl⟩)).trans (by rfl)

/-- Helper: the evaluate decode of an object whose details value is falsy
    returns the field defaults with details absent. -/
theorem decodeEval_falsy_details (fs : List (String × JsonValue))
    (h : truthy (dictGet fs "details" .null) = false) :
    decodeEvaluateSubmissionResponse (.obj fs) =
      .ok ⟨dictGet fs "isValid" (.bool false), dictGet fs "errorText" (.str ""),
           dictGet fs "quality" (.num 0), dictGet fs "uniqueness" (.num 0),
           dictGet fs "score" (.num 0), none⟩ := by
  simp [decodeEvaluateSubmissionResponse, h, Bind.bind, Except.bind]

/-- C6: a 200 evaluate response with no details key decodes with details
    absent, while one whose details object carries an empty chatSummaries
    array decodes with details present and an empty summary sequence. -/
theorem C6_details_optionality (fs d : List (String × JsonValue)) :
    (lookupField fs "details" = none →
      evaluate_submission (.success 200 (.ok (.obj fs))) =
        .ret ⟨dictGet fs "isValid" (.bool false), dictGet fs "errorText" (.str ""),
              dictGet fs "quality" (.num 0), dictGet fs "uniqueness" (.num 0),
              dictGet fs "score" (.num 0), none⟩) ∧
    (lookupField fs "details" = some (.obj d) →
     lookupField d "chatSummaries" = some (.arr []) →
      evaluate_submission (.success 200 (.ok (.obj fs))) =
        .ret ⟨dictGet fs "isValid" (.bool false), dictGet fs "errorText" (.str ""),
              dictGet fs "quality" (.num 0), dictGet fs "uniqueness" (.num 0),
              dictGet fs "score" (.num 0),
              some ⟨dictGet d "totalMessages" (.num 0), dictGet d "uniqueMessages" (.num 0),
                    dictGet d "llmReasoning" .null, []⟩⟩) := by
  constructor
  · intro habs
    have hd : truthy (dictGet fs "details" .null) = false := by
      simp [dictGet, habs, truthy]
    simp [evaluate_submission, decodeEval_falsy_details fs hd]
  · intro hdet hsum
    have hdg : dictGet fs "details" .null = .obj d := by simp [dictGet, hdet]
    have hdne : d.isEmpty = false := by
      cases d with
      | nil => exact absurd hsum (by simp [lookupField])
      | cons p rest => rfl
    have hdetails : decodeEvaluationDetails (.obj d) =
        .ok ⟨dictGet d "totalMessages" (.num 0), dictGet d "uniqueMessages" (.num 0),
             dictGet d "llmReasoning" .null, []⟩ := by
      simp [decodeEvaluationDetails, dictGet, hsum, pyIter, Bind.bind, Except.bind,
            List.mapM, List.mapM.loop, pure, Except.pure]
    simp [evaluate_submission, decodeEvaluateSubmissionResponse, hdg, truthy, hdne,
          hdetails, Bind.bind, Except.bind, Except.map]

/-- C6 witness: a concrete response without details, and one with an empty
    chatSummaries array inside details. -/
theorem C6_witness :
    evaluate_submission (.success 200 (.ok (.obj [("isValid", .bool true)]))) =
      .ret ⟨.bool true, .str "", .num 0, .num 0, .num 0, none⟩ ∧
    evaluate_submission (.success 200 (.ok (.obj
        [("details", .obj [("chatSummaries", .arr []), ("totalMessages", .num 7)])]))) =
      .ret ⟨.bool false, .str "", .num 0, .num 0, .num 0,
            some ⟨.num 7, .num 0, .null, []⟩⟩ :=
  ⟨((C6_details_optionality [("isValid", .bool true)] []).1 rfl).trans (by rfl),
   ((C6_details_optionality
       [("details", .obj [("chatSummaries", .arr []), ("totalMessages", .num 7)])]
       [("chatSummaries", .arr []), ("totalMessages", .num 7)]).2 rfl rfl).trans (by rfl)⟩

/-- C9: a 200 evaluate response whose details key is bound to a falsy value
    (null or the empty object) is indistinguishable at the interface from
    one with the key missing: the decode equals the decode of the response
    with the key removed, and the resulting details are absent. -/
theorem C9_falsy_details_like_missing (fs : List (String × JsonValue)) (v : JsonValue)
    (hv : lookupField fs "details" = some v) (hfalsy : v = .null ∨ v = .obj []) :
    evaluate_submission (.success 200 (.ok (.obj fs))) =
      evaluate_submission (.success 200 (.ok (.obj (removeField fs "details")))) ∧
    ∃ r, evaluate_submission (.success 200 (.ok (.obj fs))) = .ret r ∧
         r.details = none := by
  have htr : truthy (dictGet fs "details" .null) = false := by
    rcases hfalsy with h | h <;> simp [dictGet, hv, h, truthy]
  have hrm : ∀ (k : String) (dflt : JsonValue), k ≠ "details" →
      dictGet (removeField fs "details") k dflt = dictGet fs k dflt := by
    intro k dflt hk
    unfold dictGet
    rw [lookupField_removeField_ne fs "details" k hk]
  have htr2 : truthy (dictGet (removeField fs "details") "details" .null) = false := by
    simp [dictGet, lookupField_removeField_self, truthy]
  have h1 := decodeEval_falsy_details fs htr
  have h2 := decodeEval_falsy_details (removeField fs "details") htr2
  refine ⟨?_, ?_⟩
  · simp [evaluate_submission, h1, h2, hrm "isValid" (.bool false) (by decide),
          hrm "errorText" (.str "") (by decide), hrm "quality" (.num 0) (by decide),
          hrm "uniqueness" (.num 0) (by decide), hrm "score" (.num 0) (by decide)]
  · refine ⟨⟨dictGet fs "isValid" (.bool false), dictGet fs "errorText" (.str ""),
             dictGet fs "quality" (.num 0), dictGet fs "uniqueness" (.num 0),
             dictGet fs "score" (.num 0), none⟩, ?_, rfl⟩
    simp [evaluate_submission, h1]

/-- C9 witness: details bound to the empty object decodes exactly like the
    same response without the key, with details absent. -/
theorem C9_witness :
    evaluate_submission (.success 200 (.ok (.obj
        [("details", .obj []), ("quality", .num 1)]))) =
      evaluate_submission (.success 200 (.ok (.obj [("quality", .num 1)]))) ∧
    ∃ r, evaluate_submission (.success 200 (.ok (.obj
        [("details", .obj []), ("quality", .num 1)]))) = .ret r ∧
         r.details = none :=
  ⟨((C9_falsy_details_like_missing [("details", .obj []), ("quality", .num 1)]
       (.obj []) rfl (Or.inr rfl)).1).trans (by rfl),
   (C9_falsy_details_like_missing [("details", .obj []), ("quality", .num 1)]
       (.obj []) rfl (Or.inr rfl)).2⟩

/-- Whether the maximal digit run at the head is non-empty and immediately
    followed by a '+' or '-' sign character. -/
def digitRunThenSign (cs : List Char) : Bool :=
  match takeDigits cs with
  | (d, c :: _) => !d.isEmpty && (c = '+' || c = '-')
  | (_, []) => false

/-- Whether somewhere in the string a '.' is followed by a digit run that is
    in turn followed by a sign character — the only situation in which the
    fractional-run rewriting of parse_iso_datetime can fire. -/
def fracSignSplice : List Char → Bool
  | [] => false
  | c :: cs => (c = '.' && digitRunThenSign cs) || fracSignSplice cs

/-- Whether the string contains a fractional-seconds component at all, i.e.
    a '.' immediately followed by a digit. -/
def hasFracComponent : List Char → Bool
  | [] => false
  | c :: cs => (c = '.' && !(takeDigits cs).1.isEmpty) || hasFracComponent cs

theorem takeDigits_nonempty_of_head_digit (c : Char) (cs : List Char)
    (h : c.isDigit = true) : (takeDigits (c :: cs)).1.isEmpty = false := by
  simp [takeDigits, h]

theorem tryTail_eq_none_of_no_sign (cs : List Char)
    (h : digitRunThenSign cs = false) : tryTail cs = none := by
  unfold tryTail digitRunThenSign at *
  cases htd : takeDigits cs with
  | mk d r =>
    rw [htd] at h
    cases d with
    | nil => simp
    | cons a d' =>
      cases r with
      | nil => simp
      | cons c rest =>
        simp only [List.isEmpty_cons, Bool.not_false, Bool.true_and] at h
        have hns : ¬(c = '+' ∨ c = '-') := by
          simp only [Bool.or_eq_false_iff] at h
          rcases h with ⟨h1, h2⟩
          rintro (rfl | rfl) <;> simp_all
        simp [hns]

theorem fracSignSplice_tail (c : Char) (cs : List Char)
    (h : fracSignSplice (c :: cs) = false) : fracSignSplice cs = false := by
  rw [fracSignSplice, Bool.or_eq_false_iff] at h
  exact h.2

theorem regexScan_eq_none_of_noSplice :
    ∀ (l : List Char), fracSignSplice l = false → ∀ pre, regexScan pre l = none := by
  intro l
  induction l with
  | nil => intro _ pre; rfl
  | cons c cs ih =>
    intro h pre
    have h2 := fracSignSplice_tail c cs h
    rw [regexScan]
    by_cases hn : c = '\n'
    · simp [hn]
    · rw [if_neg hn, ih h2 (pre ++ [c])]
      by_cases hdot : c = '.'
      · subst hdot
        rw [fracSignSplice, Bool.or_eq_false_iff] at h
        have hds : digitRunThenSign cs = false := by simpa using h.1
        simp [tryTail_eq_none_of_no_sign cs hds]
      · simp [hdot]

theorem regexSplit_eq_none_of_noSplice (l : List Char)
    (h : fracSignSplice l = false) : regexSplit l = none := by
  cases l with
  | nil => rfl
  | cons c cs =>
    rw [regexSplit]
    by_cases hn : c = '\n'
    · simp [hn]
    · rw [if_neg hn]
      exact regexScan_eq_none_of_noSplice cs (fracSignSplice_tail c cs h) [c]

theorem fracSignSplice_false_of_noFrac (l : List Char)
    (h : hasFracComponent l = false) : fracSignSplice l = false := by
  induction l with
  | nil => rfl
  | cons c cs ih =>
    rw [hasFracComponent, Bool.or_eq_false_iff] at h
    rw [fracSignSplice, Bool.or_eq_false_iff]
    refine ⟨?_, ih h.2⟩
    by_cases hdot : c = '.'
    · have hde : (takeDigits cs).1.isEmpty = true := by
        have := h.1
        simp [hdot] at this
        simpa using this
      have hds : digitRunThenSign cs = false := by
        unfold digitRunThenSign
        cases htd : takeDigits cs with
        | mk d r =>
          rw [htd] at hde
          cases r with
          | nil => rfl
          | cons a r' => simp [hde]
      simp [hds]
    · simp [hdot]

/-- Helper shared by the pass-through results: without a trailing 'Z' and
    without any dot-digit-run-sign occurrence, the normalization is the
    identity and the parse is a plain fromisoformat. -/
theorem normalizeIsoL_id_of_noSplice (s : String) (h1 : s.data.getLast? ≠ some 'Z')
    (h2 : fracSignSplice s.data = false) :
    normalizeIsoL s.data = s.data ∧ parse_iso_datetime s = fromisoformatL s.data := by
  have hz : zStep s.data = s.data := by
    unfold zStep
    rw [if_neg h1]
  have hsplit : regexSplit (zStep s.data) = none := by
    rw [hz]
    exact regexSplit_eq_none_of_noSplice s.data h2
  rw [hz] at hsplit
  have hnorm : normalizeIsoL s.data = s.data := by
    simp only [normalizeIsoL, hz, hsplit]
  exact ⟨hnorm, by unfold parse_iso_datetime; rw [hnorm]⟩

/-- C10: the fractional-run rewriting fires only when a sign character
    follows the fractional digits: for every input string that does not end
    in 'Z' and in which no fractional digit run is immediately followed by
    '+' or '-', parse_iso_datetime leaves the string completely unmodified
    before the final parse step. -/
theorem C10_rewrite_needs_sign (s : String) (h1 : s.data.getLast? ≠ some 'Z')
    (h2 : fracSignSplice s.data = false) :
    normalizeIsoL s.data = s.data ∧ parse_iso_datetime s = fromisoformatL s.data :=
  normalizeIsoL_id_of_noSplice s h1 h2

/-- C10 witness: a string with a fractional run at the end of the string (no
    sign after it) passes through the normalizer untouched. -/
theorem C10_witness :
    normalizeIsoL ("2024-01-15T10:30:00.123456789").data =
      ("2024-01-15T10:30:00.123456789").data ∧
    parse_iso_datetime "2024-01-15T10:30:00.123456789" =
      fromisoformatL ("2024-01-15T10:30:00.123456789").data :=
  C10_rewrite_needs_sign "2024-01-15T10:30:00.123456789" (by decide) (by decide)

/-- C8: a string with no fractional-seconds component (no '.' followed by a
    digit) and no trailing 'Z' is passed to the final parse step unchanged,
    as plain ISO-8601. -/
theorem C8_no_fraction_passthrough (s : String) (h1 : s.data.getLast? ≠ some 'Z')
    (h2 : hasFracComponent s.data = false) :
    normalizeIsoL s.data = s.data ∧ parse_iso_datetime s = fromisoformatL s.data :=
  normalizeIsoL_id_of_noSplice s h1 (fracSignSplice_false_of_noFrac s.data h2)

/-- C8 witness: an offset-bearing string without a fractional component is
    parsed as-is. -/
theorem C8_witness :
    normalizeIsoL ("2024-01-15T10:30:00+05:00").data =
      ("2024-01-15T10:30:00+05:00").data ∧
    parse_iso_datetime "2024-01-15T10:30:00+05:00" =
      fromisoformatL ("2024-01-15T10:30:00+05:00").data :=
  C8_no_fraction_passthrough "2024-01-15T10:30:00+05:00" (by decide) (by decide)

theorem matchRestDollar_of_clean (t : List Char) (h1 : t ≠ []) (h2 : '\n' ∉ t) :
    matchRestDollar t = some t := by
  unfold matchRestDollar
  have hl : t.getLast? ≠ some '\n' := by
    intro hl
    exact h2 (List.mem_of_getLast?_eq_some hl)
  rw [if_neg hl, if_pos ⟨h1, h2⟩]

theorem takeDigits_append (d r : List Char) (hd : ∀ c ∈ d, c.isDigit = true)
    (hr : ∀ c, r.head? = some c → c.isDigit = false) :
    takeDigits (d ++ r) = (d, r) := by
  induction d with
  | nil =>
    cases r with
    | nil => rfl
    | cons c cs =>
      have := hr c rfl
      simp [takeDigits, this]
  | cons a d' ih =>
    have ha : a.isDigit = true := hd a (List.mem_cons_self a d')
    have ih2 := ih (fun c hc => hd c (List.mem_cons_of_mem a hc))
    simp [takeDigits, ha, ih2]

theorem tryTail_spec (frac tz : List Char) (sgn : Char)
    (hf : frac ≠ []) (hfd : ∀ c ∈ frac, c.isDigit = true)
    (hs : sgn = '+' ∨ sgn = '-') (ht : tz ≠ []) (htn : '\n' ∉ tz) :
    tryTail (frac ++ sgn :: tz) = some (frac, sgn :: tz) := by
  have hsd : ∀ c, (sgn :: tz).head? = some c → c.isDigit = false := by
    intro c hc
    cases hc
    rcases hs with rfl | rfl <;> rfl
  unfold tryTail
  rw [takeDigits_append frac (sgn :: tz) hfd hsd]
  simp only [hf, if_neg hf]
  rw [if_pos hs, matchRestDollar_of_clean tz ht htn]
  simp

theorem regexScan_eq_none_of_no_dot :
    ∀ (l : List Char), '.' ∉ l → ∀ pre, regexScan pre l = none := by
  intro l
  induction l with
  | nil => intro _ pre; rfl
  | cons c cs ih =>
    intro h pre
    have hc : c ≠ '.' := fun he => h (he ▸ List.mem_cons_self c cs)
    have hcs : '.' ∉ cs := fun he => h (List.mem_cons_of_mem c he)
    rw [regexScan]
    by_cases hn : c = '\n'
    · simp [hn]
    · rw [if_neg hn, ih hcs (pre ++ [c])]
      simp [hc]

theorem regexScan_spec (frac tz : List Char) (sgn : Char)
    (hf : frac ≠ []) (hfd : ∀ c ∈ frac, c.isDigit = true)
    (hs : sgn = '+' ∨ sgn = '-') (ht : tz ≠ []) (htn : '\n' ∉ tz) (htd : '.' ∉ tz) :
    ∀ (mid pre : List Char), '\n' ∉ mid →
      regexScan pre (mid ++ '.' :: (frac ++ sgn :: tz)) =
        some (pre ++ mid, frac, sgn :: tz) := by
  have hnodot : '.' ∉ frac ++ sgn :: tz := by
    intro hmem
    rcases List.mem_append.1 hmem with hm | hm
    · have := hfd '.' hm
      simp at this
    · rcases hm with _ | hm
      · rcases hs with h | h <;> simp at h
      · exact htd (by assumption)
  intro mid
  induction mid with
  | nil =>
    intro pre hmid
    rw [List.nil_append, regexScan]
    rw [if_neg (by decide : ¬('.' = '\n'))]
    rw [regexScan_eq_none_of_no_dot _ hnodot (pre ++ ['.'])]
    rw [if_pos rfl, tryTail_spec frac tz sgn hf hfd hs ht htn]
    simp
  | cons c mid' ih =>
    intro pre hmid
    have hc : c ≠ '\n' := fun he => hmid (he ▸ List.mem_cons_self c mid')
    have hmid' : '\n' ∉ mid' := fun he => hmid (List.mem_cons_of_mem c he)
    rw [List.cons_append, regexScan, if_neg hc, ih (pre ++ [c]) hmid']
    simp

theorem regexSplit_spec (base frac tz : List Char) (sgn : Char)
    (hb : base ≠ []) (hbn : '\n' ∉ base)
    (hf : frac ≠ []) (hfd : ∀ c ∈ frac, c.isDigit = true)
    (hs : sgn = '+' ∨ sgn = '-') (ht : tz ≠ []) (htn : '\n' ∉ tz) (htd : '.' ∉ tz) :
    regexSplit (base ++ '.' :: (frac ++ sgn :: tz)) = some (base, frac, sgn :: tz) := by
  cases base with
  | nil => exact absurd rfl hb
  | cons b bs =>
    have hbne : b ≠ '\n' := fun he => hbn (he ▸ List.mem_cons_self b bs)
    have hbs : '\n' ∉ bs := fun he => hbn (List.mem_cons_of_mem b he)
    rw [List.cons_append, regexSplit, if_neg hbne,
        regexScan_spec frac tz sgn hf hfd hs ht htn htd bs [b] hbs]
    simp

theorem normalizeIsoL_spec (s : List Char) (base frac tz : List Char) (sgn : Char)
    (hz : zStep s = base ++ '.' :: (frac ++ sgn :: tz))
    (hb : base ≠ []) (hbn : '\n' ∉ base)
    (hf : frac ≠ []) (hfd : ∀ c ∈ frac, c.isDigit = true)
    (hs : sgn = '+' ∨ sgn = '-') (ht : tz ≠ []) (htn : '\n' ∉ tz) (htd : '.' ∉ tz) :
    normalizeIsoL s = base ++ '.' :: (padTo6 frac ++ sgn :: tz) := by
  simp only [normalizeIsoL, hz,
             regexSplit_spec base frac tz sgn hb hbn hf hfd hs ht htn htd]

/-- C1: for every input, parse_iso_datetime first replaces a trailing 'Z'
    with "+00:00" (the zStep applied in the hypothesis), and whenever the
    resulting string has the shape base.digits-sign-offset, it truncates the
    fractional run to its first 6 digits or right-pads it with zeros to 6
    (padTo6), splices it back, and parses the result; in particular
    "2024-01-15T10:30:00.123456789Z" parses to the same value as the
    canonical "2024-01-15T10:30:00.123456+00:00", the instant
    2024-01-15T10:30:00.123456 at UTC offset zero. -/
theorem C1_normalizer_shape (s : String) (base frac tz : List Char) (sgn : Char)
    (hz : zStep s.data = base ++ '.' :: (frac ++ sgn :: tz))
    (hb : base ≠ []) (hbn : '\n' ∉ base)
    (hf : frac ≠ []) (hfd : ∀ c ∈ frac, c.isDigit = true)
    (hs : sgn = '+' ∨ sgn = '-') (ht : tz ≠ []) (htn : '\n' ∉ tz) (htd : '.' ∉ tz) :
    parse_iso_datetime s = fromisoformatL (base ++ '.' :: (padTo6 frac ++ sgn :: tz)) ∧
    parse_iso_datetime "2024-01-15T10:30:00.123456789Z" =
      fromisoformatL ("2024-01-15T10:30:00.123456+00:00").data ∧
    parse_iso_datetime "2024-01-15T10:30:00.123456789Z" =
      some ⟨2024, 1, 15, 10, 30, 0, 123456, some 0⟩ := by
  refine ⟨?_, rfl, rfl⟩
  unfold parse_iso_datetime
  rw [normalizeIsoL_spec s.data base frac tz sgn hz hb hbn hf hfd hs ht htn htd]

/-- C1 witness at the spec's short-fraction example: the one-digit fraction
    of "2024-01-15T10:30:00.5+02:00" is padded to 500000. -/
theorem C1_witness :
    parse_iso_datetime "2024-01-15T10:30:00.5+02:00" =
      fromisoformatL ("2024-01-15T10:30:00.500000+02:00").data ∧
    parse_iso_datetime "2024-01-15T10:30:00.123456789Z" =
      some ⟨2024, 1, 15, 10, 30, 0, 123456, some 0⟩ := by
  have h := C1_normalizer_shape "2024-01-15T10:30:00.5+02:00"
    ("2024-01-15T10:30:00").data ['5'] ("02:00").data '+'
    rfl (by decide) (by decide) (by decide) (by decide) (Or.inl rfl)
    (by decide) (by decide) (by decide)
  exact ⟨h.1.trans (by rfl), h.2.2⟩

/-- C7: the normalizer is idempotent on already-canonical strings: a valid
    date-time string with exactly six fractional digits and an explicit
    signed numeric UTC offset parses to the very timestamp the string itself
    denotes (the string rewriting is the identity on it), and applying the
    string normalization a second time changes nothing. -/
theorem C7_idempotent_on_canonical (s : String) (base frac tz : List Char) (sgn : Char)
    (d : PyDatetime)
    (hsplit : s.data = base ++ '.' :: (frac ++ sgn :: tz))
    (hb : base ≠ []) (hbn : '\n' ∉ base)
    (hlen : frac.length = 6) (hfd : ∀ c ∈ frac, c.isDigit = true)
    (hs : sgn = '+' ∨ sgn = '-')
    (ht : tz ≠ []) (htz : ∀ c ∈ tz, c.isDigit = true ∨ c = ':')
    (hvalid : fromisoformatL s.data = some d) :
    parse_iso_datetime s = some d ∧
    normalizeIsoL s.data = s.data ∧
    normalizeIsoL (normalizeIsoL s.data) = normalizeIsoL s.data := by
  have hf : frac ≠ [] := by
    intro h
    rw [h] at hlen
    exact absurd hlen (by decide)
  have htn : '\n' ∉ tz := fun hm => by
    rcases htz _ hm with h | h
    · exact absurd h (by decide)
    · exact absurd h (by decide)
  have htd : '.' ∉ tz := fun hm => by
    rcases htz _ hm with h | h
    · exact absurd h (by decide)
    · exact absurd h (by decide)
  obtain ⟨c, hc⟩ : ∃ c, tz.getLast? = some c := by
    cases htzl : tz.getLast? with
    | none => exact absurd (List.getLast?_eq_none_iff.mp htzl) ht
    | some c => exact ⟨c, rfl⟩
  have hcz : c ≠ 'Z' := by
    have hcm : c ∈ tz := List.mem_of_getLast?_eq_some hc
    rcases htz c hcm with h | h
    · intro he
      rw [he] at h
      exact absurd h (by decide)
    · intro he
      rw [he] at h
      exact absurd h (by decide)
  have hwl : (base ++ '.' :: (frac ++ sgn :: tz)).getLast? = some c := by
    simp [List.getLast?_append, List.getLast?_cons, hc]
  have hzstep : zStep s.data = s.data := by
    unfold zStep
    rw [hsplit]
    rw [if_neg (by rw [hwl]; exact fun he => hcz (Option.some.inj he))]
  have hpad : padTo6 frac = frac := by
    unfold padTo6
    rw [hlen, List.take_of_length_le (by omega : frac.length ≤ 6)]
    simp
  have hnorm : normalizeIsoL s.data = s.data := by
    have hn := normalizeIsoL_spec s.data base frac tz sgn (hzstep.trans hsplit)
      hb hbn hf hfd hs ht htn htd
    rw [hn, hpad, ← hsplit]
  refine ⟨?_, hnorm, by rw [hnorm, hnorm]⟩
  unfold parse_iso_datetime
  rw [hnorm]
  exact hvalid

/-- C7 witness: the canonical string "2024-01-15T10:30:00.500000+02:00" is a
    fixed point of the normalization and parses to its own instant. -/
theorem C7_witness :
    parse_iso_datetime "2024-01-15T10:30:00.500000+02:00" =
      some ⟨2024, 1, 15, 10, 30, 0, 500000, some 7200000000⟩ ∧
    normalizeIsoL ("2024-01-15T10:30:00.500000+02:00").data =
      ("2024-01-15T10:30:00.500000+02:00").data := by
  have h := C7_idempotent_on_canonical "2024-01-15T10:30:00.500000+02:00"
    ("2024-01-15T10:30:00").data ("500000").data ("02:00").data '+'
    ⟨2024, 1, 15, 10, 30, 0, 500000, some 7200000000⟩
    rfl (by decide) (by decide) (by decide) (by decide) (Or.inl rfl)
    (by decide) (by decide) rfl
  exact ⟨h.1, h.2.1⟩
